import Mathlib

/-!
Shallow embedding of the multi-LLM frontend client (`src/app/page.tsx`,
the location-aware variant).  The React component `Home` keeps six pieces
of `useState` state; we model them as one record `AppState` and each
event handler (`handleSubmit`, the per-provider settle continuations,
`handleAnalyze`, the geolocation callback) as an explicit transition on
that record.  JS numbers for coordinates are modelled as rationals; the
`Number.toFixed(2)` rendering is modelled by `toFixed2`.
-/

/-- Embeds the TS interface `LLMResponse`:
`{ model, response, error?, timestamp, loading? }`.
The optional `loading` flag is `false` when absent. -/
structure LLMResponse where
  model : String
  response : String
  error : Option String := none
  timestamp : Nat
  loading : Bool := false
deriving DecidableEq

/-- Embeds the TS interface `QueryResult`:
`{ query, responses, analysis? }`. -/
structure QueryResult where
  query : String
  responses : List LLMResponse
  analysis : Option String := none
deriving DecidableEq

/-- Embeds the TS interface `Location`:
`{ city?, country?, latitude, longitude }` (coordinates as rationals). -/
structure Location where
  city : Option String := none
  country : Option String := none
  latitude : Rat
  longitude : Rat
deriving DecidableEq

/-- The six `useState` cells of the `Home` component. -/
structure AppState where
  query : String
  loading : Bool
  analyzing : Bool
  results : Option QueryResult
  history : List String
  location : Option Location
  locationPermission : String
deriving DecidableEq

/-- The initial render state: all `useState` defaults. -/
def initState : AppState :=
  { query := "", loading := false, analyzing := false, results := none,
    history := [], location := none, locationPermission := "prompt" }

/-- Leading-run test on character lists: `startsWithL pat s` holds when
`pat` is an initial segment of `s`. -/
def startsWithL : List Char → List Char → Bool
  | [], _ => true
  | _ :: _, [] => false
  | a :: as, b :: bs => a == b && startsWithL as bs

/-- Contiguous-run containment on character lists: `containsL pat s`
holds when `pat` occurs somewhere inside `s`. -/
def containsL (pat : List Char) : List Char → Bool
  | [] => pat.isEmpty
  | c :: t => startsWithL pat (c :: t) || containsL pat t

/-- Embeds JS `s.includes(pat)` (substring containment). -/
def jsIncludes (s pat : String) : Bool :=
  containsL pat.data s.data

/-- Embeds JS `s.toLowerCase()` (character-wise lowering). -/
def jsToLower (s : String) : String :=
  String.mk (s.data.map Char.toLower)

/-- Embeds JS `s.trim()`: strip leading and trailing whitespace. -/
def jsTrim (s : String) : String :=
  String.mk
    (((s.data.dropWhile Char.isWhitespace).reverse.dropWhile Char.isWhitespace).reverse)

/-- The fixed keyword list of `shouldAddLocation` (page.tsx line 347). -/
def locationKeywords : List String :=
  ["weather", "temperature", "forecast", "near me", "nearby", "local", "around here"]

/-- Embeds `shouldAddLocation` (page.tsx lines 346-349):
`locationKeywords.some(keyword => query.toLowerCase().includes(keyword))`. -/
def shouldAddLocation (query : String) : Bool :=
  locationKeywords.any (fun keyword => jsIncludes (jsToLower query) keyword)

/-- JS truthiness of an optional string: `undefined` and `""` are falsy. -/
def truthyStr : Option String → Bool
  | none => false
  | some s => !s.isEmpty

/-- Round a rational to the nearest hundredth, scaled by 100: the value
`floor (abs x * 100 + 1/2)` with the sign of `x` reattached (ties away
from zero, the idealised `Number.toFixed` behaviour), computed directly
on the numerator and denominator so it evaluates by kernel reduction. -/
def round2 (x : Rat) : Int :=
  if 0 ≤ x.num then (200 * x.num + (x.den : Int)).fdiv (2 * (x.den : Int))
  else -((200 * (-x.num) + (x.den : Int)).fdiv (2 * (x.den : Int)))

/-- Left-pad a fractional part to two digits. -/
def pad2 (n : Nat) : String :=
  (if n < 10 then "0" else "") ++ Nat.repr n

/-- Embeds JS `x.toFixed(2)`: decimal rendering with two fraction digits. -/
def toFixed2 (x : Rat) : String :=
  let n := round2 x
  (if n < 0 then "-" else "") ++
    Nat.repr (n.natAbs / 100) ++ "." ++ pad2 (n.natAbs % 100)

/-- Embeds `enhanceQueryWithLocation` (page.tsx lines 351-359):
returns the query unchanged unless a location is stored and a keyword
matches; otherwise appends the place phrase (when `city && country` are
truthy) or the rounded-coordinates phrase. -/
def enhanceQueryWithLocation (location : Option Location) (query : String) : String :=
  match location with
  | none => query
  | some l =>
    if shouldAddLocation query then
      let locationString :=
        if truthyStr l.city && truthyStr l.country then
          "in " ++ l.city.getD ("") ++ ", " ++ l.country.getD ("")
        else
          "at coordinates " ++ toFixed2 l.latitude ++ ", " ++ toFixed2 l.longitude
      query ++ " " ++ locationString
    else query

/-- The four initial pending slots built by `handleSubmit`
(page.tsx lines 369-374); `now` stands for `Date.now()`. -/
def initialResponses (now : Nat) : List LLMResponse :=
  [ { model := "GPT-5.2 Thinking (OpenAI) - Dec 2025", response := "", timestamp := now, loading := true },
    { model := "Grok 4.1 Thinking (xAI) - Dec 2025", response := "", timestamp := now, loading := true },
    { model := "Claude Opus 4.5 (Anthropic) - Dec 2025", response := "", timestamp := now, loading := true },
    { model := "Gemini 3 Pro (Google) - Dec 2025", response := "", timestamp := now, loading := true } ]

/-- The per-provider dispatch table `modelEndpoints`
(page.tsx lines 385-390). -/
def modelEndpoints : List (String × Nat) :=
  [ ("/api/query-individual/gpt", 0),
    ("/api/query-individual/grok", 1),
    ("/api/query-individual/claude", 2),
    ("/api/query-individual/gemini", 3) ]

/-- Pointwise update of one list slot: `modifyAt f l i` rewrites the
element at index `i` through `f` and leaves the list unchanged when `i`
is out of range (the shape of the error-settle write, which reads the
current slot back before replacing it). -/
def modifyAt (f : LLMResponse → LLMResponse) : List LLMResponse → Nat → List LLMResponse
  | [], _ => []
  | a :: as, 0 => f a :: as
  | a :: as, n + 1 => a :: modifyAt f as n

/-- The synchronous body of `handleSubmit` (page.tsx lines 361-390):
guard on `query.trim()`, set the loading flag, compute the enhanced
query, replace the result set with four pending slots, and push the raw
query onto the history with `[query, ...prev.slice(0, 19)]`. -/
def submitStep (s : AppState) (now : Nat) : AppState :=
  if jsTrim s.query = "" then s
  else
    let enhancedQuery := enhanceQueryWithLocation s.location s.query
    { s with
      loading := true,
      results := some { query := enhancedQuery, responses := initialResponses now, analysis := none },
      history := s.query :: s.history.take 19 }

/-- The success continuation of one provider request (page.tsx lines
404-409): `newResponses[index] = { ...data, loading: false }` applied to
the then-current result set. -/
def settleOkStep (s : AppState) (index : Nat) (data : LLMResponse) : AppState :=
  match s.results with
  | none => s
  | some prev =>
    let newResponses := prev.responses.set index { data with loading := false }
    { s with results := some ({ prev with responses := newResponses }) }

/-- The slot rewrite performed by the catch continuation: keep the
current fields but clear loading and record the fixed error message. -/
def errUpdate (old : LLMResponse) : LLMResponse :=
  { old with loading := false, error := some ("Failed to fetch response") }

/-- The catch continuation of one provider request (page.tsx lines
410-422): the slot at the captured index keeps its fields but gets
`loading: false` and `error: "Failed to fetch response"`. -/
def settleErrStep (s : AppState) (index : Nat) : AppState :=
  match s.results with
  | none => s
  | some prev =>
    let newResponses := modifyAt errUpdate prev.responses index
    { s with results := some ({ prev with responses := newResponses }) }

/-- Once every provider promise has settled, `handleSubmit` clears the
global loading flag (page.tsx lines 426-427). -/
def submitDoneStep (s : AppState) : AppState :=
  { s with loading := false }

/-- The synchronous head of `handleAnalyze` (page.tsx lines 430-434):
guard on a present result set, then set the analyzing flag. -/
def analyzeStartStep (s : AppState) : AppState :=
  match s.results with
  | none => s
  | some _ => { s with analyzing := true }

/-- The success path of `handleAnalyze` (page.tsx lines 446-452):
attach the returned analysis text and clear the analyzing flag. -/
def analyzeOkStep (s : AppState) (analysis : String) : AppState :=
  { s with
    results := (match s.results with
      | none => none
      | some prev => some { prev with analysis := some analysis }),
    analyzing := false }

/-- The catch path of `handleAnalyze` (page.tsx lines 448-452): only the
`finally` block runs, clearing the analyzing flag; state is otherwise
untouched. -/
def analyzeFailStep (s : AppState) : AppState :=
  { s with analyzing := false }

/-- Events driving the component: user edits, geolocation resolution,
submission, the per-provider settle continuations, and analysis. -/
inductive Event where
  | setQuery (q : String)
  | locationResolve (loc : Location)
  | locationDenied
  | submit (now : Nat)
  | submitDone
  | settleOk (index : Nat) (data : LLMResponse)
  | settleErr (index : Nat)
  | analyzeStart
  | analyzeOk (analysis : String)
  | analyzeFail
deriving DecidableEq

/-- One step of the event-driven state machine. -/
def step (s : AppState) : Event → AppState
  | .setQuery q => { s with query := q }
  | .locationResolve loc => { s with location := some loc, locationPermission := "granted" }
  | .locationDenied => { s with locationPermission := "denied" }
  | .submit now => submitStep s now
  | .submitDone => submitDoneStep s
  | .settleOk index data => settleOkStep s index data
  | .settleErr index => settleErrStep s index
  | .analyzeStart => analyzeStartStep s
  | .analyzeOk analysis => analyzeOkStep s analysis
  | .analyzeFail => analyzeFailStep s

/-- Settle continuations only ever carry an index drawn from
`modelEndpoints`; other events are unconstrained. -/
def Event.wf : Event → Prop
  | .settleOk index _ => index ∈ modelEndpoints.map Prod.snd
  | .settleErr index => index ∈ modelEndpoints.map Prod.snd
  | _ => True

/-- States reachable from the initial render by well-formed events. -/
inductive Reachable : AppState → Prop where
  | init : Reachable initState
  | step : ∀ {s : AppState} (e : Event), Reachable s → e.wf → Reachable (step s e)

/-- The render guard for the analyze button (page.tsx line 538):
the button exists only when a result set is present and
`results.responses.every(r => !r.loading)`. -/
def analyzeAvailable (s : AppState) : Bool :=
  match s.results with
  | none => false
  | some r => r.responses.all (fun resp => !resp.loading)

/-- The value a settle outcome writes into a slot: a success replaces
the slot with the payload (loading cleared), a failure keeps the slot
but clears loading and records the fixed error message. -/
def settleSlot (old : LLMResponse) : Option LLMResponse → LLMResponse
  | some data => { data with loading := false }
  | none => errUpdate old

/-- Apply one settle outcome `(index, payload?)` to a responses list,
exactly as the two continuations of `handleSubmit` do. -/
def applySettle (l : List LLMResponse) (ev : Nat × Option LLMResponse) : List LLMResponse :=
  match ev.2 with
  | some data => l.set ev.1 { data with loading := false }
  | none => modifyAt errUpdate l ev.1

/-- Fold a batch of settle outcomes over a responses list, in arrival
order. -/
def runS (l : List LLMResponse) : List (Nat × Option LLMResponse) → List LLMResponse
  | [] => l
  | ev :: rest => runS (applySettle l ev) rest

/-- The event a settle outcome induces on the state machine. -/
def settleEvent : Nat × Option LLMResponse → Event
  | (i, some data) => .settleOk i data
  | (i, none) => .settleErr i

/-- Example latitude 48.856 (= 6107/125), written with explicit
numerator and denominator so it evaluates by kernel reduction. -/
def exLat : Rat := ⟨6107, 125, by decide, by decide⟩

/-- Example longitude 2.352 (= 294/125). -/
def exLon : Rat := ⟨294, 125, by decide, by decide⟩

theorem modifyAt_length (f : LLMResponse → LLMResponse) (l : List LLMResponse) (i : Nat) :
    (modifyAt f l i).length = l.length := by
  induction l generalizing i with
  | nil => rfl
  | cons a as ih =>
    cases i with
    | zero => rfl
    | succ n => simp [modifyAt, ih]

theorem getElem?_modifyAt_self (f : LLMResponse → LLMResponse) (l : List LLMResponse) (i : Nat) :
    (modifyAt f l i)[i]? = l[i]?.map f := by
  induction l generalizing i with
  | nil => simp [modifyAt]
  | cons a as ih =>
    cases i with
    | zero => simp [modifyAt]
    | succ n => simpa [modifyAt] using ih n

theorem getElem?_modifyAt_ne (f : LLMResponse → LLMResponse) (l : List LLMResponse)
    {i j : Nat} (h : i ≠ j) : (modifyAt f l i)[j]? = l[j]? := by
  induction l generalizing i j with
  | nil => simp [modifyAt]
  | cons a as ih =>
    cases i with
    | zero =>
      cases j with
      | zero => exact absurd rfl h
      | succ m => simp [modifyAt]
    | succ n =>
      cases j with
      | zero => simp [modifyAt]
      | succ m =>
        simpa [modifyAt] using ih (fun he => h (by omega))

theorem applySettle_length (l : List LLMResponse) (ev : Nat × Option LLMResponse) :
    (applySettle l ev).length = l.length := by
  rcases ev with ⟨i, o⟩
  cases o with
  | none => simp [applySettle, modifyAt_length]
  | some data => simp [applySettle]

theorem getElem?_applySettle_self (l : List LLMResponse) (ev : Nat × Option LLMResponse) :
    (applySettle l ev)[ev.1]? = l[ev.1]?.map (fun old => settleSlot old ev.2) := by
  rcases ev with ⟨i, o⟩
  cases o with
  | none => simp [applySettle, settleSlot, getElem?_modifyAt_self]
  | some data =>
    by_cases hlt : i < l.length
    · simp [applySettle, settleSlot, List.getElem?_set_self hlt, List.getElem?_eq_getElem hlt]
    · have hle : l.length ≤ i := Nat.le_of_not_lt hlt
      have h1 : (l.set i { data with loading := false }).length ≤ i := by
        simpa [List.length_set] using hle
      simp [applySettle, List.getElem?_eq_none h1, List.getElem?_eq_none hle]

theorem getElem?_applySettle_ne (l : List LLMResponse) (ev : Nat × Option LLMResponse)
    {j : Nat} (h : ev.1 ≠ j) : (applySettle l ev)[j]? = l[j]? := by
  rcases ev with ⟨i, o⟩
  cases o with
  | none => exact getElem?_modifyAt_ne _ _ h
  | some data => simp [applySettle, List.getElem?_set_ne h]

theorem runS_length (evs : List (Nat × Option LLMResponse)) (l : List LLMResponse) :
    (runS l evs).length = l.length := by
  induction evs generalizing l with
  | nil => rfl
  | cons ev rest ih => simp [runS, ih, applySettle_length]

/-- Order-independent, once-per-slot characterisation of a settle batch
whose captured indices are pairwise distinct: each slot of the outcome
is its original value transformed by its own settle outcome when one is
present, and untouched otherwise. -/
theorem runS_getElem? (evs : List (Nat × Option LLMResponse)) (l : List LLMResponse)
    (hnd : (evs.map Prod.fst).Nodup) (j : Nat) :
    (runS l evs)[j]? =
      (match evs.find? (fun p => p.1 == j) with
       | some p => l[j]?.map (fun old => settleSlot old p.2)
       | none => l[j]?) := by
  induction evs generalizing l with
  | nil => simp [runS]
  | cons ev rest ih =>
    rcases ev with ⟨i, o⟩
    have hni : i ∉ rest.map Prod.fst := (List.nodup_cons.mp (by simpa using hnd)).1
    have hnd' : (rest.map Prod.fst).Nodup := (List.nodup_cons.mp (by simpa using hnd)).2
    by_cases hij : i = j
    · subst hij
      have hfind : rest.find? (fun p => p.1 == i) = none := by
        rw [List.find?_eq_none]
        intro x hx hbeq
        exact hni (List.mem_map.mpr ⟨x, hx, by simpa using hbeq⟩)
      have hfind2 : List.find? (fun p => p.1 == i) ((i, o) :: rest) = some (i, o) :=
        List.find?_cons_of_pos _ (by simp)
      rw [runS, ih _ hnd', hfind, hfind2, getElem?_applySettle_self]
    · have hfind2 : List.find? (fun p => p.1 == j) ((i, o) :: rest) =
          List.find? (fun p => p.1 == j) rest :=
        List.find?_cons_of_neg _ (by simpa using hij)
      have happ : (applySettle l (i, o))[j]? = l[j]? := getElem?_applySettle_ne _ _ hij
      rw [runS, ih _ hnd', hfind2, happ]

theorem step_settleEvent_results (s : AppState) (r : QueryResult) (ev : Nat × Option LLMResponse)
    (h : s.results = some r) :
    step s (settleEvent ev) = { s with results := some ({ r with responses := applySettle r.responses ev }) } := by
  rcases ev with ⟨i, o⟩
  cases o with
  | none => simp [settleEvent, step, settleErrStep, h, applySettle]
  | some data => simp [settleEvent, step, settleOkStep, h, applySettle]

/-- Folding a batch of settle events through the state machine acts on
the current result set exactly as `runS` acts on its responses. -/
theorem foldl_settleEvent_results (evs : List (Nat × Option LLMResponse)) (s : AppState)
    (r : QueryResult) (h : s.results = some r) :
    (evs.foldl (fun t ev => step t (settleEvent ev)) s).results =
      some ({ r with responses := runS r.responses evs }) := by
  induction evs generalizing s r with
  | nil => simpa [runS] using h
  | cons ev rest ih =>
    have h1 := step_settleEvent_results s r ev h
    simp only [List.foldl_cons, runS]
    rw [ih (step s (settleEvent ev)) ({ r with responses := applySettle r.responses ev })
      (by rw [h1])]

theorem reachable_results_length {s : AppState} (h : Reachable s) :
    ∀ r : QueryResult, s.results = some r → r.responses.length = 4 := by
  induction h with
  | init => intro r hr; simp [initState] at hr
  | step e hr hwf ih =>
    rename_i t
    intro r hres
    cases e with
    | setQuery q => exact ih r (by simpa [step] using hres)
    | locationResolve loc => exact ih r (by simpa [step] using hres)
    | locationDenied => exact ih r (by simpa [step] using hres)
    | submitDone => exact ih r (by simpa [step, submitDoneStep] using hres)
    | analyzeStart =>
      cases hprev : t.results with
      | none => simp [step, analyzeStartStep, hprev] at hres
      | some prev =>
        have : r = prev := by simp [step, analyzeStartStep, hprev] at hres; exact hres.symm
        exact this ▸ ih prev hprev
    | analyzeFail => exact ih r (by simpa [step, analyzeFailStep] using hres)
    | analyzeOk text =>
      cases hprev : t.results with
      | none => simp [step, analyzeOkStep, hprev] at hres
      | some prev =>
        simp [step, analyzeOkStep, hprev] at hres
        rw [← hres]
        exact ih prev hprev
    | submit now =>
      by_cases hq : jsTrim t.query = ""
      · exact ih r (by simpa [step, submitStep, hq] using hres)
      · simp [step, submitStep, hq] at hres
        rw [← hres]
        simp [initialResponses]
    | settleOk i data =>
      cases hprev : t.results with
      | none => simp [step, settleOkStep, hprev] at hres
      | some prev =>
        simp [step, settleOkStep, hprev] at hres
        rw [← hres]
        simpa using ih prev hprev
    | settleErr i =>
      cases hprev : t.results with
      | none => simp [step, settleErrStep, hprev] at hres
      | some prev =>
        simp [step, settleErrStep, hprev] at hres
        rw [← hres]
        simpa [modifyAt_length] using ih prev hprev

theorem reachable_history_length {s : AppState} (h : Reachable s) : s.history.length ≤ 20 := by
  induction h with
  | init => simp [initState]
  | step e hr hwf ih =>
    rename_i t
    cases e with
    | setQuery q => simpa [step] using ih
    | locationResolve loc => simpa [step] using ih
    | locationDenied => simpa [step] using ih
    | submitDone => simpa [step, submitDoneStep] using ih
    | analyzeStart =>
      cases hprev : t.results with
      | none => simpa [step, analyzeStartStep, hprev] using ih
      | some prev => simpa [step, analyzeStartStep, hprev] using ih
    | analyzeFail => simpa [step, analyzeFailStep] using ih
    | analyzeOk text =>
      cases hprev : t.results with
      | none => simpa [step, analyzeOkStep, hprev] using ih
      | some prev => simpa [step, analyzeOkStep, hprev] using ih
    | submit now =>
      by_cases hq : jsTrim t.query = ""
      · simpa [step, submitStep, hq] using ih
      · simp [step, submitStep, hq]
    | settleOk i data =>
      cases hprev : t.results with
      | none => simpa [step, settleOkStep, hprev] using ih
      | some prev => simpa [step, settleOkStep, hprev] using ih
    | settleErr i =>
      cases hprev : t.results with
      | none => simpa [step, settleErrStep, hprev] using ih
      | some prev => simpa [step, settleErrStep, hprev] using ih

theorem truthyStr_eq_true_of_ne {c : String} (h : c ≠ "") : truthyStr (some c) = true := by
  cases he : c.isEmpty with
  | false => simp [truthyStr, he]
  | true => exact absurd ((String.isEmpty_iff c).mp he) h

/-- C1: for every query that is non-empty after trimming, submitting
replaces the result set with a fresh one whose responses list has
exactly 4 slots, one per configured provider in the fixed dispatch
order gpt, grok, claude, gemini, and every slot is initially pending. -/
theorem submit_initializes_four_pending_slots (s : AppState) (now : Nat)
    (h : jsTrim s.query ≠ "") :
    ∃ r : QueryResult,
      (step s (Event.submit now)).results = some r ∧
      r.responses.length = 4 ∧
      (∀ x ∈ r.responses, x.loading = true) ∧
      r.responses.map (fun x => x.model) =
        [ "GPT-5.2 Thinking (OpenAI) - Dec 2025",
          "Grok 4.1 Thinking (xAI) - Dec 2025",
          "Claude Opus 4.5 (Anthropic) - Dec 2025",
          "Gemini 3 Pro (Google) - Dec 2025" ] ∧
      modelEndpoints.map Prod.fst =
        [ "/api/query-individual/gpt", "/api/query-individual/grok",
          "/api/query-individual/claude", "/api/query-individual/gemini" ] ∧
      modelEndpoints.map Prod.snd = [0, 1, 2, 3] := by
  refine ⟨{ query := enhanceQueryWithLocation s.location s.query,
            responses := initialResponses now, analysis := none }, ?_, ?_, ?_, ?_, ?_, ?_⟩
  · simp [step, submitStep, h]
  · simp [initialResponses]
  · intro x hx
    simp [initialResponses] at hx
    rcases hx with h1 | h1 | h1 | h1 <;> rw [h1]
  · rfl
  · rfl
  · rfl

/-- C1 witness: a concrete accepted submission. -/
theorem submit_initializes_four_pending_slots_witness :
    ∃ r : QueryResult,
      (step { query := "hello", loading := false, analyzing := false, results := none,
              history := [], location := none, locationPermission := "prompt" }
          (Event.submit 0)).results = some r ∧
      r.responses.length = 4 ∧
      (∀ x ∈ r.responses, x.loading = true) ∧
      r.responses.map (fun x => x.model) =
        [ "GPT-5.2 Thinking (OpenAI) - Dec 2025",
          "Grok 4.1 Thinking (xAI) - Dec 2025",
          "Claude Opus 4.5 (Anthropic) - Dec 2025",
          "Gemini 3 Pro (Google) - Dec 2025" ] ∧
      modelEndpoints.map Prod.fst =
        [ "/api/query-individual/gpt", "/api/query-individual/grok",
          "/api/query-individual/claude", "/api/query-individual/gemini" ] ∧
      modelEndpoints.map Prod.snd = [0, 1, 2, 3] :=
  submit_initializes_four_pending_slots _ 0 (by decide)

/-- C2: a failing provider request settles only its own slot, turning
it into a non-pending error state, and leaves every sibling slot and
the rest of the result set unchanged. -/
theorem settle_failure_is_local (s : AppState) (r : QueryResult) (i : Nat)
    (h : s.results = some r) :
    ∃ r' : QueryResult,
      (step s (Event.settleErr i)).results = some r' ∧
      r'.query = r.query ∧
      r'.analysis = r.analysis ∧
      r'.responses.length = r.responses.length ∧
      (∀ j : Nat, j ≠ i → r'.responses[j]? = r.responses[j]?) ∧
      r'.responses[i]? = r.responses[i]?.map
        (fun old => { old with loading := false, error := some ("Failed to fetch response") }) ∧
      (∀ x : LLMResponse, r'.responses[i]? = some x →
        x.loading = false ∧ x.error = some ("Failed to fetch response")) ∧
      (step s (Event.settleErr i)).history = s.history ∧
      (step s (Event.settleErr i)).query = s.query := by
  have hstep : step s (Event.settleErr i) =
      { s with results := some ({ r with responses := modifyAt errUpdate r.responses i }) } := by
    simp [step, settleErrStep, h]
  refine ⟨{ r with responses := modifyAt errUpdate r.responses i }, by rw [hstep], rfl, rfl,
    modifyAt_length _ _ _,
    fun j hj => getElem?_modifyAt_ne _ _ (fun e => hj e.symm), getElem?_modifyAt_self _ _ _,
    ?_, by rw [hstep], by rw [hstep]⟩
  intro x hx
  rw [getElem?_modifyAt_self] at hx
  rcases hmem : r.responses[i]? with _ | old
  · rw [hmem] at hx; simp at hx
  · rw [hmem] at hx
    simp at hx
    rw [← hx]
    exact ⟨rfl, rfl⟩

/-- C2 witness: a concrete failing settle on slot 2 of a live result
set. -/
theorem settle_failure_is_local_witness :
    ∃ r' : QueryResult,
      (step { query := "", loading := true, analyzing := false,
              results := some { query := "q", responses := initialResponses 0, analysis := none },
              history := [], location := none, locationPermission := "prompt" }
          (Event.settleErr 2)).results = some r' ∧
      r'.query = (QueryResult.mk ("q") (initialResponses 0) none).query ∧
      r'.analysis = (QueryResult.mk ("q") (initialResponses 0) none).analysis ∧
      r'.responses.length = (QueryResult.mk ("q") (initialResponses 0) none).responses.length ∧
      (∀ j : Nat, j ≠ 2 →
        r'.responses[j]? = (QueryResult.mk ("q") (initialResponses 0) none).responses[j]?) ∧
      r'.responses[2]? = (QueryResult.mk ("q") (initialResponses 0) none).responses[2]?.map
        (fun old => { old with loading := false, error := some ("Failed to fetch response") }) ∧
      (∀ x : LLMResponse, r'.responses[2]? = some x →
        x.loading = false ∧ x.error = some ("Failed to fetch response")) ∧
      (step { query := "", loading := true, analyzing := false,
              results := some { query := "q", responses := initialResponses 0, analysis := none },
              history := [], location := none, locationPermission := "prompt" }
          (Event.settleErr 2)).history = [] ∧
      (step { query := "", loading := true, analyzing := false,
              results := some { query := "q", responses := initialResponses 0, analysis := none },
              history := [], location := none, locationPermission := "prompt" }
          (Event.settleErr 2)).query = "" :=
  settle_failure_is_local _ (QueryResult.mk ("q") (initialResponses 0) none) 2 rfl

/-- C5: a settle continuation dispatched before a superseding
submission still writes its captured index into the replacement result
set; nothing discards the stale update. -/
theorem stale_settle_applies_to_replaced_results (s : AppState) (now : Nat) (i : Nat)
    (data : LLMResponse) (hq : jsTrim s.query ≠ "") (hi : i < 4) :
    (step (step s (Event.submit now)) (Event.settleOk i data)).results =
      some { query := enhanceQueryWithLocation s.location s.query,
             responses := (initialResponses now).set i { data with loading := false },
             analysis := none } ∧
    (step (step s (Event.submit now)) (Event.settleOk i data)).results ≠
      (step s (Event.submit now)).results := by
  have h1 : (step s (Event.submit now)).results =
      some { query := enhanceQueryWithLocation s.location s.query,
             responses := initialResponses now, analysis := none } := by
    simp [step, submitStep, hq]
  have h2 := step_settleEvent_results _ _ (i, some data) h1
  rw [show settleEvent (i, some data) = Event.settleOk i data from rfl] at h2
  have h3 : (step (step s (Event.submit now)) (Event.settleOk i data)).results =
      some { query := enhanceQueryWithLocation s.location s.query,
             responses := (initialResponses now).set i { data with loading := false },
             analysis := none } := by
    rw [h2]
    simp [applySettle]
  refine ⟨h3, ?_⟩
  rw [h3, h1]
  intro he
  have hresp : (initialResponses now).set i { data with loading := false } =
      initialResponses now := congrArg QueryResult.responses (Option.some.inj he)
  have hlen : i < (initialResponses now).length := by simpa [initialResponses] using hi
  have h4 := congrArg (fun l => l[i]?) hresp
  simp only [] at h4
  rw [List.getElem?_set_self hlen] at h4
  have h5 : ∀ x : LLMResponse, (initialResponses now)[i]? = some x → x.loading = true := by
    interval_cases i <;> (intro x hx; simp [initialResponses] at hx; rw [← hx])
  have h6 := h5 _ h4.symm
  simp at h6

/-- C5 witness: slot 1 of a fresh second submission overwritten by a
stale success payload. -/
theorem stale_settle_applies_to_replaced_results_witness :
    (step (step { query := "second", loading := true, analyzing := false,
                  results := some { query := "first", responses := initialResponses 0, analysis := none },
                  history := ["first"], location := none, locationPermission := "prompt" }
            (Event.submit 7))
        (Event.settleOk 1 (LLMResponse.mk ("stale") ("from first submission") none 3 false))).results =
      some { query := "second",
             responses := (initialResponses 7).set 1
               { LLMResponse.mk ("stale") ("from first submission") none 3 false with loading := false },
             analysis := none } ∧
    (step (step { query := "second", loading := true, analyzing := false,
                  results := some { query := "first", responses := initialResponses 0, analysis := none },
                  history := ["first"], location := none, locationPermission := "prompt" }
            (Event.submit 7))
        (Event.settleOk 1 (LLMResponse.mk ("stale") ("from first submission") none 3 false))).results ≠
      (step { query := "second", loading := true, analyzing := false,
              results := some { query := "first", responses := initialResponses 0, analysis := none },
              history := ["first"], location := none, locationPermission := "prompt" }
          (Event.submit 7)).results :=
  stale_settle_applies_to_replaced_results _ 7 1 _ (by decide) (by decide)

/-- C8: submitting while the query is empty or whitespace-only changes
no application state at all. -/
theorem empty_query_submit_is_noop (s : AppState) (now : Nat) (h : jsTrim s.query = "") :
    step s (Event.submit now) = s := by
  simp [step, submitStep, h]

/-- C8 witness: a whitespace-only query is a no-op submission. -/
theorem empty_query_submit_is_noop_witness :
    step { query := "   ", loading := false, analyzing := false, results := none,
           history := [], location := none, locationPermission := "prompt" }
        (Event.submit 0) =
      { query := "   ", loading := false, analyzing := false, results := none,
        history := [], location := none, locationPermission := "prompt" } :=
  empty_query_submit_is_noop _ 0 (by decide)

/-- C9: when the analysis request fails, the result set, history, query
and location are untouched, no error is recorded, the analyzing flag is
cleared, and the availability of the analyze action is unchanged. -/
theorem analyze_failure_preserves_state (s : AppState) :
    (step (step s Event.analyzeStart) Event.analyzeFail).results = s.results ∧
    (step (step s Event.analyzeStart) Event.analyzeFail).history = s.history ∧
    (step (step s Event.analyzeStart) Event.analyzeFail).query = s.query ∧
    (step (step s Event.analyzeStart) Event.analyzeFail).location = s.location ∧
    (step (step s Event.analyzeStart) Event.analyzeFail).loading = s.loading ∧
    (step (step s Event.analyzeStart) Event.analyzeFail).analyzing = false ∧
    analyzeAvailable (step (step s Event.analyzeStart) Event.analyzeFail) = analyzeAvailable s := by
  cases hres : s.results with
  | none => simp [step, analyzeStartStep, analyzeFailStep, analyzeAvailable, hres]
  | some r => simp [step, analyzeStartStep, analyzeFailStep, analyzeAvailable, hres]

/-- C6: in every reachable state the analyze action is unavailable
while any slot of the current result set is still pending, and it is
available once all four slots (the result set always has exactly four)
have left the pending state; with no result set it is unavailable. -/
theorem analyze_gated_on_all_settled (s : AppState) (hr : Reachable s) :
    (s.results = none → analyzeAvailable s = false) ∧
    (∀ r : QueryResult, s.results = some r →
      r.responses.length = 4 ∧
      ((∃ x ∈ r.responses, x.loading = true) → analyzeAvailable s = false) ∧
      ((∀ x ∈ r.responses, x.loading = false) → analyzeAvailable s = true)) := by
  refine ⟨fun hn => by simp [analyzeAvailable, hn], fun r hres => ?_⟩
  refine ⟨reachable_results_length hr r hres, ?_, ?_⟩
  · rintro ⟨x, hx, hl⟩
    cases hall : r.responses.all (fun resp => !resp.loading) with
    | false => simp [analyzeAvailable, hres, hall]
    | true =>
      exfalso
      have := List.all_eq_true.mp hall x hx
      simp [hl] at this
  · intro hall
    simp only [analyzeAvailable, hres]
    exact List.all_eq_true.mpr (fun x hx => by simp [hall x hx])

/-- C6 witness: right after a concrete submission every slot is
pending and the analyze action is unavailable. -/
theorem analyze_gated_on_all_settled_witness :
    analyzeAvailable (step (step initState (Event.setQuery ("hi"))) (Event.submit 0)) = false := by
  have h := (analyze_gated_on_all_settled _
      (Reachable.step (Event.submit 0)
        (Reachable.step (Event.setQuery ("hi")) Reachable.init trivial) trivial)).2
    (QueryResult.mk ("hi") (initialResponses 0) none) (by decide)
  exact h.2.1
    ⟨{ model := "GPT-5.2 Thinking (OpenAI) - Dec 2025", response := "", error := none,
       timestamp := 0, loading := true }, by decide, rfl⟩

/-- C7: in every reachable state the history holds at most 20 entries;
an accepted submission prepends the raw query (most recent first),
keeping only the first 19 previous entries, so a full history of 20
loses exactly its oldest entry. -/
theorem history_bounded_most_recent_first (s : AppState) (hr : Reachable s) :
    s.history.length ≤ 20 ∧
    (∀ now : Nat, jsTrim s.query ≠ "" →
      (step s (Event.submit now)).history = s.query :: s.history.take 19 ∧
      (s.history.length = 20 →
        (step s (Event.submit now)).history = s.query :: s.history.dropLast)) := by
  refine ⟨reachable_history_length hr, fun now hq => ⟨?_, ?_⟩⟩
  · simp [step, submitStep, hq]
  · intro hlen
    rw [List.dropLast_eq_take, hlen]
    simp [step, submitStep, hq]

/-- C7 witness: a concrete accepted submission prepends its query. -/
theorem history_bounded_most_recent_first_witness :
    (step initState (Event.setQuery ("q"))).history.length ≤ 20 ∧
    (step (step initState (Event.setQuery ("q"))) (Event.submit 5)).history = ["q"] := by
  have h := history_bounded_most_recent_first _
    (Reachable.step (Event.setQuery ("q")) Reachable.init trivial)
  refine ⟨h.1, ?_⟩
  rw [(h.2 5 (by decide)).1]
  decide

theorem string_append_regroup1 (q c k : String) :
    q ++ " " ++ ("in " ++ c ++ ", " ++ k) = q ++ " in " ++ c ++ ", " ++ k := by
  simp only [String.append_assoc]
  rw [show (" in " : String) = " " ++ "in " from rfl, String.append_assoc]

theorem string_append_regroup2 (q a b : String) :
    q ++ " " ++ ("at coordinates " ++ a ++ ", " ++ b) =
      q ++ " at coordinates " ++ a ++ ", " ++ b := by
  simp only [String.append_assoc]
  rw [show (" at coordinates " : String) = " " ++ "at coordinates " from rfl,
    String.append_assoc]

/-- C3: a query is enriched only when a location is stored and a fixed
locality keyword occurs case-insensitively in it, and is otherwise
returned unchanged; the enriched form appends the place phrase when
city and country are known and the rounded-coordinates phrase
otherwise. -/
theorem enrichment_rule (loc : Option Location) (q : String) :
    ((loc = none ∨ shouldAddLocation q = false) → enhanceQueryWithLocation loc q = q) ∧
    (∀ l : Location, loc = some l → shouldAddLocation q = true →
      ((∀ c k : String, l.city = some c → l.country = some k → c ≠ "" → k ≠ "" →
          enhanceQueryWithLocation loc q = q ++ " in " ++ c ++ ", " ++ k) ∧
       ((truthyStr l.city && truthyStr l.country) = false →
          enhanceQueryWithLocation loc q =
            q ++ " at coordinates " ++ toFixed2 l.latitude ++ ", " ++ toFixed2 l.longitude))) := by
  constructor
  · rintro (hnone | hfalse)
    · rw [hnone]; rfl
    · cases loc with
      | none => rfl
      | some l => simp [enhanceQueryWithLocation, hfalse]
  · rintro l rfl hsl
    constructor
    · intro c k hc hk hcne hkne
      have h1 : enhanceQueryWithLocation (some l) q = q ++ " " ++ ("in " ++ c ++ ", " ++ k) := by
        simp [enhanceQueryWithLocation, hsl, hc, hk,
          truthyStr_eq_true_of_ne hcne, truthyStr_eq_true_of_ne hkne]
      rw [h1, string_append_regroup1]
    · intro hfalsy
      have h1 : enhanceQueryWithLocation (some l) q =
          q ++ " " ++ ("at coordinates " ++ toFixed2 l.latitude ++ ", " ++ toFixed2 l.longitude) := by
        simp [enhanceQueryWithLocation, hsl, hfalsy]
      rw [h1, string_append_regroup2]

/-- C3 witness: the spec's own example, with location Paris/France. -/
theorem enrichment_rule_witness :
    enhanceQueryWithLocation (some (Location.mk (some ("Paris")) (some ("France")) exLat exLon))
        ("weather tomorrow") =
      "weather tomorrow" ++ " in " ++ "Paris" ++ ", " ++ "France" :=
  ((enrichment_rule (some (Location.mk (some ("Paris")) (some ("France")) exLat exLon))
      ("weather tomorrow")).2
    (Location.mk (some ("Paris")) (some ("France")) exLat exLon) rfl (by decide)).1
    ("Paris") ("France") rfl rfl (by decide) (by decide)

/-- C10: the place-name form requires both a city and a country; a
location with only one of them falls back to the coordinate form with
both coordinates rounded to 2 decimal places. -/
theorem place_form_requires_city_and_country (l : Location) (q : String)
    (hkw : shouldAddLocation q = true) :
    (∀ c : String, l.city = some c → l.country = none →
      enhanceQueryWithLocation (some l) q =
        q ++ " at coordinates " ++ toFixed2 l.latitude ++ ", " ++ toFixed2 l.longitude) ∧
    (∀ k : String, l.city = none → l.country = some k →
      enhanceQueryWithLocation (some l) q =
        q ++ " at coordinates " ++ toFixed2 l.latitude ++ ", " ++ toFixed2 l.longitude) ∧
    (∀ c k : String, l.city = some c → c ≠ "" → l.country = some k → k ≠ "" →
      enhanceQueryWithLocation (some l) q = q ++ " in " ++ c ++ ", " ++ k) := by
  refine ⟨?_, ?_, ?_⟩
  · intro c hc hk
    have h1 : enhanceQueryWithLocation (some l) q =
        q ++ " " ++ ("at coordinates " ++ toFixed2 l.latitude ++ ", " ++ toFixed2 l.longitude) := by
      simp [enhanceQueryWithLocation, hkw, hc, hk, truthyStr]
    rw [h1, string_append_regroup2]
  · intro k hc hk
    have h1 : enhanceQueryWithLocation (some l) q =
        q ++ " " ++ ("at coordinates " ++ toFixed2 l.latitude ++ ", " ++ toFixed2 l.longitude) := by
      simp [enhanceQueryWithLocation, hkw, hc, hk, truthyStr]
    rw [h1, string_append_regroup2]
  · intro c k hc hcne hk hkne
    have h1 : enhanceQueryWithLocation (some l) q = q ++ " " ++ ("in " ++ c ++ ", " ++ k) := by
      simp [enhanceQueryWithLocation, hkw, hc, hk,
        truthyStr_eq_true_of_ne hcne, truthyStr_eq_true_of_ne hkne]
    rw [h1, string_append_regroup1]

/-- C10 witness: a city without a country falls back to rounded
coordinates, matching the spec's numeric example. -/
theorem place_form_requires_city_and_country_witness :
    enhanceQueryWithLocation (some (Location.mk (some ("Paris")) none exLat exLon))
        ("weather tomorrow") =
      "weather tomorrow" ++ " at coordinates " ++ toFixed2 exLat ++ ", " ++ toFixed2 exLon ∧
    toFixed2 exLat = "48.86" ∧ toFixed2 exLon = "2.35" :=
  ⟨((place_form_requires_city_and_country (Location.mk (some ("Paris")) none exLat exLon)
      ("weather tomorrow") (by decide)).1 ("Paris") rfl rfl),
   by decide, by decide⟩

/-- C4 counterexample: a success settle replaces the slot wholesale
with the server payload, so a payload reporting a different model name
changes the slot's provider label after submission time. -/
theorem settle_can_change_provider_label :
    ((step (step (step initState (Event.setQuery ("hi"))) (Event.submit 0))
        (Event.settleOk 0 (LLMResponse.mk ("spoofed") ("x") none 1 false))).results.map
      (fun r => r.responses.map (fun x => x.model))) =
      some [ "spoofed",
             "Grok 4.1 Thinking (xAI) - Dec 2025",
             "Claude Opus 4.5 (Anthropic) - Dec 2025",
             "Gemini 3 Pro (Google) - Dec 2025" ] ∧
    ((step (step initState (Event.setQuery ("hi"))) (Event.submit 0)).results.map
      (fun r => r.responses.map (fun x => x.model))) =
      some [ "GPT-5.2 Thinking (OpenAI) - Dec 2025",
             "Grok 4.1 Thinking (xAI) - Dec 2025",
             "Claude Opus 4.5 (Anthropic) - Dec 2025",
             "Gemini 3 Pro (Google) - Dec 2025" ] := by
  decide

/-- C4 amended: the responses length is preserved by every settle
transition; an error settle keeps the slot's provider label while a
success settle replaces the slot with the payload (loading cleared);
the dispatched indices are exactly 0-3, pairwise distinct, and over any
batch of settle events with distinct captured indices each slot
receives at most one terminal update — its final value depends only on
its own settle outcome, independent of arrival order. -/
theorem settle_transitions_amended :
    (modelEndpoints.map Prod.snd = [0, 1, 2, 3] ∧ (modelEndpoints.map Prod.snd).Nodup) ∧
    (∀ (s : AppState) (r : QueryResult) (i : Nat) (data : LLMResponse), s.results = some r →
      ((step s (Event.settleOk i data)).results =
          some ({ r with responses := r.responses.set i { data with loading := false } }) ∧
        (r.responses.set i { data with loading := false }).length = r.responses.length) ∧
      ((step s (Event.settleErr i)).results =
          some ({ r with responses := modifyAt errUpdate r.responses i }) ∧
        (modifyAt errUpdate r.responses i).length = r.responses.length ∧
        (modifyAt errUpdate r.responses i)[i]?.map (fun x => x.model) =
          r.responses[i]?.map (fun x => x.model))) ∧
    (∀ (l : List LLMResponse) (evs : List (Nat × Option LLMResponse)),
      (runS l evs).length = l.length) ∧
    (∀ (l : List LLMResponse) (evs : List (Nat × Option LLMResponse)),
      (evs.map Prod.fst).Nodup →
      ∀ j : Nat,
        (runS l evs)[j]? =
          (match evs.find? (fun p => p.1 == j) with
           | some p => l[j]?.map (fun old => settleSlot old p.2)
           | none => l[j]?)) ∧
    (∀ (s : AppState) (r : QueryResult) (evs : List (Nat × Option LLMResponse)),
      s.results = some r →
      (evs.foldl (fun t ev => step t (settleEvent ev)) s).results =
        some ({ r with responses := runS r.responses evs })) := by
  refine ⟨by decide, ?_, fun l evs => runS_length evs l,
    fun l evs hnd j => runS_getElem? evs l hnd j,
    fun s r evs hres => foldl_settleEvent_results evs s r hres⟩
  intro s r i data hres
  refine ⟨⟨by simp [step, settleOkStep, hres], by simp⟩,
    by simp [step, settleErrStep, hres], modifyAt_length _ _ _, ?_⟩
  rw [getElem?_modifyAt_self]
  cases hmem : r.responses[i]? with
  | none => rfl
  | some old => simp [errUpdate]

/-- C4 amended witness: two distinct-index settles on a fresh result
set; slot 0 carries its own error outcome. -/
theorem settle_transitions_amended_witness :
    (runS (initialResponses 0) [(0, none), (1, none)])[0]? =
      some (errUpdate { model := "GPT-5.2 Thinking (OpenAI) - Dec 2025", response := "",
                        error := none, timestamp := 0, loading := true }) := by
  have h := settle_transitions_amended.2.2.2.1 (initialResponses 0) [(0, none), (1, none)]
    (by decide) 0
  rw [h]
  decide
